import Mathlib

/-!
Verification of the CPU PM domain helpers
(`drivers/base/power/cpu_domains.c` and `include/linux/cpu_domains.h`).

The development shallowly embeds the C data structures and functions:

* `GenpdState` / `Genpd` embed `struct genpd_power_state` and the fields of
  `struct generic_pm_domain` that the helpers touch;
* `CpuPD` embeds `struct cpu_pm_domain` (member cpumask, parent pointer,
  platform ops); a heap `Nat → Option CpuPD` models the pointer graph and a
  `List CpuPD` models the `of_cpu_pd_list` registry scanned by `to_cpu_pd`;
* machine integers are modelled as `Nat`/`Int`; the one place where unsigned
  wrap-around matters (`u64 sleep_ns` in `cpu_pd_down_ok`) takes an explicit
  `% 2^64`.

External collaborators (PM QoS, the scheduler tick, the generic power-domain
framework, device lookup) appear as explicit inputs: the QoS value, the
per-CPU next-wakeup function, the current time, the result of
`genpd_dev_pm_attach`, and so on.
-/

namespace CpuDomains

/-- Nanoseconds per microsecond (`NSEC_PER_USEC`). -/
def NSEC_PER_USEC : Nat := 1000

/-- Modulus of the C `u64` type. -/
def U64 : Nat := 2 ^ 64

/-- Value of `ktime_set(KTIME_SEC_MAX, 0).tv64` in nanoseconds:
`KTIME_SEC_MAX = KTIME_MAX / NSEC_PER_SEC = 9223372036`, so the sentinel
used to initialise `earliest` in `cpu_pd_down_ok` is
`9223372036 * 10^9` ns. -/
def ktimeSecMaxNs : Int := 9223372036 * 1000000000

/-- One entry of `genpd->states` (`struct genpd_power_state`): the fields read
by `cpu_pd_down_ok` and `cpu_pd_power_off`. -/
structure GenpdState where
  power_off_latency_ns : Nat
  power_on_latency_ns : Nat
  residency_ns : Nat
  param : Nat
deriving Repr, DecidableEq, Inhabited

/-- The fields of `struct generic_pm_domain` used by the helpers:
`state_idx`, the `states` table (`state_count` is its length), plus `name`
and `flags` which the helpers never write after initialisation. -/
structure Genpd where
  name : String
  flags : Nat
  states : List GenpdState
  state_idx : Nat
deriving Repr, DecidableEq

/-- Total state cost `state_sleep_ns = states[i].power_off_latency_ns +
states[i].power_on_latency_ns + states[i].residency_ns`, computed in `u64`
arithmetic. -/
def stateCost (s : GenpdState) : Nat :=
  (s.power_off_latency_ns + s.power_on_latency_ns + s.residency_ns) % U64

/-- The `for_each_cpu_and(cpu, cpu_pd->cpus, cpu_online_mask)` minimisation in
`cpu_pd_down_ok`: `earliest` starts at the `KTIME_SEC_MAX` sentinel and is
lowered to each online member CPU's `tick_nohz_get_next_wakeup`. -/
def earliestWakeup (cpus online : List Nat) (wk : Nat → Int) : Int :=
  (cpus.filter (fun c => online.contains c)).foldl
    (fun earliest c => if wk c < earliest then wk c else earliest) ktimeSecMaxNs

/-- Computation of `sleep_ns = ktime_to_ns(ktime_sub(earliest, ktime_get()))` stored into a
`u64` variable: the signed difference wraps modulo `2^64`. -/
def sleepNs (cpus online : List Nat) (wk : Nat → Int) (now : Int) : Nat :=
  ((earliestWakeup cpus online wk - now) % (U64 : Int)).toNat

/-- The descending state scan of `cpu_pd_down_ok`
(`for (i = state_count - 1; i >= 0; i--)`), scanning indices `i, i-1, ..., 0`:
a state whose total cost exceeds the sleep window is skipped (`continue`); the
loop `break`s at the first state whose cost is strictly below the QoS bound
(in ns), leaving `i >= 0`, which the function then accepts; if the loop runs
off the end (C's `i = -1`) the result is `none`. -/
def scanDown (states : List GenpdState) (sleep qosns : Nat) : Nat → Option Nat
  | 0 =>
    let cost := stateCost (states.getD 0 default)
    if cost > sleep then none
    else if cost < qosns then some 0
    else none
  | i + 1 =>
    let cost := stateCost (states.getD (i + 1) default)
    if cost > sleep then scanDown states sleep qosns i
    else if cost < qosns then some (i + 1)
    else scanDown states sleep qosns i

/-- The state scan started at `i = state_count - 1`: when the table is empty
the loop condition `i >= 0` fails immediately (C starts at `i = -1`) and no
index is produced. -/
def downOkIdx (states : List GenpdState) (sleep qosns : Nat) : Option Nat :=
  if states.length = 0 then none
  else scanDown states sleep qosns (states.length - 1)

/-- Embedding of `cpu_pd_down_ok`: the admission decision.  Inputs besides the genpd are
the member cpumask (`cpu_pd->cpus`, as an iteration list), the online mask,
the per-CPU next-wakeup query, the current time and the PM QoS value
(`pm_qos_request(PM_QOS_CPU_DMA_LATENCY)`, microseconds).  Returns the boolean
verdict and the updated genpd.  Note `if (sleep_ns <= 0)` in the source
compares a `u64`, so only `sleep_ns == 0` triggers the veto. -/
def cpu_pd_down_ok (g : Genpd) (cpus online : List Nat) (wk : Nat → Int)
    (now : Int) (qos : Nat) : Bool × Genpd :=
  -- genpd->state_idx = 0;
  let g0 : Genpd := { g with state_idx := 0 }
  -- if (!qos_ns) return false;
  if qos = 0 then (false, g0)
  else
    let sleep := sleepNs cpus online wk now
    -- if (sleep_ns <= 0) return false;  /* u64: only == 0 */
    if sleep = 0 then (false, g0)
    else
      match downOkIdx g.states sleep (qos * NSEC_PER_USEC) with
      | some i => (true, { g0 with state_idx := i })
      | none => (false, g0)

/-- The three-state cost table of the spec's worked examples: per-state total
costs 10 µs, 30 µs and 100 µs at indices 0, 1 and 2. -/
def exTable : List GenpdState :=
  [⟨10000, 0, 0, 0⟩, ⟨30000, 0, 0, 0⟩, ⟨100000, 0, 0, 0⟩]

/-- A concrete domain carrying `exTable`. -/
def exG : Genpd := { name := "cpus-domain", flags := 0, states := exTable, state_idx := 0 }

/-- A one-state table whose single state has total cost 1000 ns, used to
exercise the negative-sleep-window path of `cpu_pd_down_ok`. -/
def negG : Genpd := { name := "neg-window", flags := 0,
                      states := [⟨1000, 0, 0, 0⟩], state_idx := 0 }

/-- Embedding of `struct cpu_pm_domain`: the genpd it wraps (as an identity), the member
cpumask, the parent pointer and the platform `cpu_pd_ops`.  A callback is
modelled by what it computes: `power_on_cb` is the status an installed
`power_on` returns (`none` = NULL pointer), `power_off_cb` maps the
`(state_idx, param, cpus)` arguments to the returned status. -/
@[ext]
structure CpuPD where
  genpd : Nat
  cpus : Finset Nat
  parent : Option Nat
  power_on_cb : Option Int
  power_off_cb : Option (Nat → Nat → Finset Nat → Int)

/-- Heap of `struct cpu_pm_domain` objects addressed by `Nat` pointers. -/
def Heap : Type := Nat → Option CpuPD

/-- Body of the membership-propagation loop of `cpu_pd_attach_cpu`
(`while (!ret && cpu_pd) { cpumask_set_cpu(cpu, cpu_pd->cpus);
cpu_pd = cpu_pd->parent; }`), walking the parent chain from `start` and
inserting `cpu` into each visited domain's cpumask.  The C loop chases real
pointers; `fuel` bounds the walk in the embedding and any value at least the
chain length is exact. -/
def setCpuChain (cpu : Nat) : Nat → Heap → Option Nat → Heap
  | 0, h, _ => h
  | _ + 1, h, none => h
  | fuel + 1, h, some i =>
    match h i with
    | none => h
    | some pd =>
      setCpuChain cpu fuel
        (Function.update h i (some { pd with cpus := insert cpu pd.cpus })) pd.parent

/-- The addresses the propagation loop visits, in order: the parent chain
from `start`, cut off by `fuel`, a null pointer, or a dangling address. -/
def chainIdxs (h : Heap) : Nat → Option Nat → List Nat
  | 0, _ => []
  | _ + 1, none => []
  | fuel + 1, some i =>
    match h i with
    | none => []
    | some pd => i :: chainIdxs h fuel pd.parent

/-- Embedding of `cpu_pd_attach_cpu`: `cpu_dev` is whether `get_cpu_device` found a device
(`false` models the NULL result, returning `-ENODEV = -19`), `attach_ret` is
the status of `genpd_dev_pm_attach`.  The membership walk runs only while
`!ret`, i.e. only when the generic attach succeeded. -/
def cpu_pd_attach_cpu (h : Heap) (fuel : Nat) (leaf : Option Nat) (cpu : Nat)
    (cpu_dev : Bool) (attach_ret : Int) : Int × Heap :=
  if cpu_dev then
    (attach_ret, if attach_ret = 0 then setCpuChain cpu fuel h leaf else h)
  else
    (-19, h)

/-- Embedding of `of_setup_cpu_pd`: iterate `of_setup_cpu_pd_single` (modelled by its
result function `single`) over the possible CPUs, breaking at the first
nonzero status.  Returns the final `ret` (`none` when the CPU list is empty:
the C variable is then uninitialised) together with the list of CPUs the loop
actually processed. -/
def of_setup_cpu_pd (single : Nat → Int) : List Nat → Option Int × List Nat
  | [] => (none, [])
  | c :: rest =>
    let r := single c
    if r = 0 then
      let next := of_setup_cpu_pd single rest
      (some (next.1.getD r), c :: next.2)
    else
      (some r, [c])

/-- Embedding of `to_cpu_pd`: scan the `of_cpu_pd_list` registry for the first entry whose
`pd->genpd` equals the given domain, `none` when no entry matches (the C
function returns NULL). -/
def to_cpu_pd (reg : List CpuPD) (gid : Nat) : Option CpuPD :=
  reg.find? (fun pd => pd.genpd == gid)

/-- Embedding of `cpu_pd_power_on`: `pd = to_cpu_pd(genpd)` is dereferenced with no NULL
check; the `none` result models the crash on a NULL `pd`.  Otherwise
`pd->ops.power_on ? pd->ops.power_on() : 0`. -/
def cpu_pd_power_on (reg : List CpuPD) (gid : Nat) : Option Int :=
  match to_cpu_pd reg gid with
  | none => none
  | some pd => some (pd.power_on_cb.getD 0)

/-- Embedding of `cpu_pd_power_off`: same unchecked dereference; otherwise
`pd->ops.power_off(genpd->state_idx, genpd->states[genpd->state_idx].param,
pd->cpus)` when the callback is installed, else 0. -/
def cpu_pd_power_off (reg : List CpuPD) (g : Genpd) (gid : Nat) : Option Int :=
  match to_cpu_pd reg gid with
  | none => none
  | some pd =>
    some (match pd.power_off_cb with
          | some f => f g.state_idx ((g.states.getD g.state_idx default).param) pd.cpus
          | none => 0)

/-- The registry effect of the `of_init_cpu_pm_domain` success path: the new
`cpu_pm_domain`, with `pd->genpd` already set, is published at the head of
`of_cpu_pd_list` (`list_add_rcu`) before the genpd — and hence its
`power_on`/`power_off` callbacks — is registered with the framework. -/
def of_init_cpu_pm_domain (reg : List CpuPD) (gid : Nat) (on_cb : Option Int)
    (off_cb : Option (Nat → Nat → Finset Nat → Int)) : List CpuPD :=
  { genpd := gid, cpus := ∅, parent := none,
    power_on_cb := on_cb, power_off_cb := off_cb } :: reg

/-- Heap of `struct generic_pm_domain` objects addressed by identity. -/
def GHeap : Type := Nat → Option Genpd

/-- Embedding of `cpu_pd_down_ok` as it acts on the whole system state: the genpd is
fetched by identity, the member cpumask comes from the registry entry found
by `to_cpu_pd` (the source dereferences it without a NULL check; the `none`
branch models the otherwise-crashing call as a veto that changes nothing),
and only the genpd under decision is written back. -/
def cpu_pd_down_ok_sys (gh : GHeap) (reg : List CpuPD) (gid : Nat)
    (online : List Nat) (wk : Nat → Int) (now : Int) (qos : Nat) :
    Bool × GHeap × List CpuPD :=
  match gh gid with
  | none => (false, gh, reg)
  | some g =>
    match to_cpu_pd reg gid with
    | none => (false, gh, reg)
    | some cpu_pd =>
      let r := cpu_pd_down_ok g (cpu_pd.cpus.sort (· ≤ ·)) online wk now qos
      (r.1, Function.update gh gid (some r.2), reg)

/-- A leaf `cpu_pm_domain` with an empty member set and no parent, for
concrete attach scenarios. -/
def pd0 : CpuPD := { genpd := 100, cpus := ∅, parent := none,
                     power_on_cb := none, power_off_cb := none }

/-- A one-domain heap holding `pd0` at address 0. -/
def h0 : Heap := fun i => if i = 0 then some pd0 else none

/-- A one-genpd heap holding `exG` at identity 0. -/
def gh0 : GHeap := fun i => if i = 0 then some exG else none

/-- A registry holding exactly the entry `of_init_cpu_pm_domain` publishes
for genpd identity 0. -/
def reg0 : List CpuPD := of_init_cpu_pm_domain [] 0 none none

/-! ## Helper lemmas about the admission scan -/

/-- If every index above `i` (up to the scan start `n`) is skipped — because
its cost exceeds the sleep window or is at least the QoS bound — and the
state at `i` both fits the window and costs strictly less than the QoS bound,
the scan `break`s at `i`, i.e. accepts it. -/
lemma scanDown_accept (states : List GenpdState) (sleep qosns : Nat) :
    ∀ n i, i ≤ n →
      (∀ j, i < j → j ≤ n → sleep < stateCost (states.getD j default) ∨
        qosns ≤ stateCost (states.getD j default)) →
      stateCost (states.getD i default) ≤ sleep →
      stateCost (states.getD i default) < qosns →
      scanDown states sleep qosns n = some i := by
  intro n
  induction n with
  | zero =>
    intro i hi hskip hfit hq
    interval_cases i
    simp only [scanDown]
    rw [if_neg (by omega), if_pos hq]
  | succ m ih =>
    intro i hi hskip hfit hq
    rcases Nat.lt_or_ge i (m + 1) with hlt | hge
    · have hj := hskip (m + 1) (by omega) (le_refl _)
      have hrec := ih i (by omega) (fun j h1 h2 => hskip j h1 (by omega)) hfit hq
      simp only [scanDown]
      rcases hj with hbig | hqle
      · rw [if_pos hbig]
        exact hrec
      · by_cases hb : stateCost (states.getD (m + 1) default) > sleep
        · rw [if_pos hb]
          exact hrec
        · rw [if_neg hb, if_neg (by omega)]
          exact hrec
    · have hieq : i = m + 1 := by omega
      subst hieq
      simp only [scanDown]
      rw [if_neg (by omega), if_pos hq]

/-- Same acceptance fact, phrased for the scan as started by
`cpu_pd_down_ok` at index `state_count - 1`. -/
lemma downOkIdx_accept (states : List GenpdState) (sleep qosns i : Nat)
    (hi : i < states.length)
    (hskip : ∀ j, i < j → j < states.length →
      sleep < stateCost (states.getD j default) ∨
      qosns ≤ stateCost (states.getD j default))
    (hfit : stateCost (states.getD i default) ≤ sleep)
    (hq : stateCost (states.getD i default) < qosns) :
    downOkIdx states sleep qosns = some i := by
  rw [downOkIdx, if_neg (by omega)]
  exact scanDown_accept states sleep qosns (states.length - 1) i (by omega)
    (fun j h1 h2 => hskip j h1 (by omega)) hfit hq

/-- Every branch of `cpu_pd_down_ok` returns the input genpd with only
`state_idx` replaced. -/
lemma down_ok_writes_only_state_idx (g : Genpd) (cpus online : List Nat)
    (wk : Nat → Int) (now : Int) (qos : Nat) :
    ∃ k, (cpu_pd_down_ok g cpus online wk now qos).2 = { g with state_idx := k } := by
  simp only [cpu_pd_down_ok]
  split
  · exact ⟨0, rfl⟩
  · split
    · exact ⟨0, rfl⟩
    · split
      · next i _ => exact ⟨i, rfl⟩
      · exact ⟨0, rfl⟩

/-! ## Claims about the admission engine -/

/-- C1: the claim as stated is false — with table costs 10/30/100 µs,
tolerance 20 µs and window 150 µs, `cpu_pd_down_ok` does permit power-down
but selects index 0, not 2: the `break` on `state_sleep_ns <
qos_ns * NSEC_PER_USEC` leaves `i >= 0`, so it accepts that state, while a
fitting state with cost at least the tolerance makes the loop continue. -/
theorem c1_counterexample :
    (cpu_pd_down_ok exG [0] [0] (fun _ => 150000) 0 20).1 = true ∧
    (cpu_pd_down_ok exG [0] [0] (fun _ => 150000) 0 20).2.state_idx = 0 ∧
    (cpu_pd_down_ok exG [0] [0] (fun _ => 150000) 0 20).2.state_idx ≠ 2 := by
  refine ⟨by decide, by decide, by decide⟩

/-- C1 (amended): for every domain whose table has per-state total costs
10/30/100 µs at indices 0/1/2, with tolerance 20 µs and a 150 µs window,
`cpu_pd_down_ok` permits power-down and selects index 0: the scan skips
states that fit the window but whose cost is at least the tolerance and
accepts the first state that fits and costs strictly below the tolerance. -/
theorem c1_amended (g : Genpd)
    (h : g.states.map stateCost = [10000, 30000, 100000]) :
    cpu_pd_down_ok g [0] [0] (fun _ => 150000) 0 20
      = (true, { g with state_idx := 0 }) := by
  have hsleep : sleepNs [0] [0] (fun _ => 150000) 0 = 150000 := by decide
  obtain ⟨nm, fl, sts, si⟩ := g
  rcases sts with _ | ⟨s0, _ | ⟨s1, _ | ⟨s2, _ | ⟨s3, t⟩⟩⟩⟩ <;> simp at h
  obtain ⟨hc0, hc1, hc2⟩ := h
  have hidx : downOkIdx [s0, s1, s2] 150000 (20 * NSEC_PER_USEC) = some 0 := by
    apply downOkIdx_accept
    · simp
    · intro j h1 h2
      simp only [List.length_cons, List.length_nil] at h2
      right
      interval_cases j
      · simp only [List.getD_cons_succ, List.getD_cons_zero]
        rw [hc1]; norm_num [NSEC_PER_USEC]
      · simp only [List.getD_cons_succ, List.getD_cons_zero]
        rw [hc2]; norm_num [NSEC_PER_USEC]
    · simp only [List.getD_cons_zero]
      rw [hc0]; norm_num
    · simp only [List.getD_cons_zero]
      rw [hc0]; norm_num [NSEC_PER_USEC]
  simp only [cpu_pd_down_ok, hsleep, hidx]
  norm_num

/-- C1 witness: the amended claim at the concrete example domain. -/
theorem c1_witness :
    cpu_pd_down_ok exG [0] [0] (fun _ => 150000) 0 20
      = (true, { exG with state_idx := 0 }) :=
  c1_amended exG (by decide)

/-- C2: the claim as stated is false — a candidate that fits the window and
costs strictly less than the tolerance is *accepted*, not rejected: with the
10/30/100 table, tolerance 150 µs and window 150 µs the result is admit with
index 2, and with window 50 µs it is admit (with index 1), not a veto. -/
theorem c2_counterexample :
    (cpu_pd_down_ok exG [0] [0] (fun _ => 150000) 0 150).1 = true ∧
    (cpu_pd_down_ok exG [0] [0] (fun _ => 150000) 0 150).2.state_idx = 2 ∧
    (cpu_pd_down_ok exG [0] [0] (fun _ => 50000) 0 150).1 = true := by
  refine ⟨by decide, by decide, by decide⟩

/-- C2 (amended): whenever the deepest-to-shallowest scan reaches a candidate
state whose total cost fits the sleep window and is strictly below the
latency tolerance (in ns) — i.e. every deeper state was skipped for
exceeding the window or costing at least the tolerance — the scan stops and
accepts that index, and power-down is permitted with that index selected. -/
theorem c2_amended (g : Genpd) (cpus online : List Nat) (wk : Nat → Int)
    (now : Int) (qos i : Nat) (hq : qos ≠ 0)
    (hs : sleepNs cpus online wk now ≠ 0)
    (hi : i < g.states.length)
    (hskip : ∀ j, i < j → j < g.states.length →
      sleepNs cpus online wk now < stateCost (g.states.getD j default) ∨
      qos * NSEC_PER_USEC ≤ stateCost (g.states.getD j default))
    (hfit : stateCost (g.states.getD i default) ≤ sleepNs cpus online wk now)
    (hcheap : stateCost (g.states.getD i default) < qos * NSEC_PER_USEC) :
    cpu_pd_down_ok g cpus online wk now qos = (true, { g with state_idx := i }) := by
  have hidx := downOkIdx_accept g.states (sleepNs cpus online wk now)
    (qos * NSEC_PER_USEC) i hi hskip hfit hcheap
  simp only [cpu_pd_down_ok, if_neg hq, if_neg hs, hidx]

/-- C2 witness: the amended claim at the spec's two worked scenarios. -/
theorem c2_witness :
    cpu_pd_down_ok exG [0] [0] (fun _ => 150000) 0 150
      = (true, { exG with state_idx := 2 }) ∧
    cpu_pd_down_ok exG [0] [0] (fun _ => 50000) 0 150
      = (true, { exG with state_idx := 1 }) := by
  constructor
  · refine c2_amended exG [0] [0] (fun _ => 150000) 0 150 2 (by omega) (by decide)
      (by decide) ?_ (by decide) (by decide)
    intro j h1 h2
    have h3 : exG.states.length = 3 := rfl
    omega
  · refine c2_amended exG [0] [0] (fun _ => 50000) 0 150 1 (by omega) (by decide)
      (by decide) ?_ (by decide) (by decide)
    intro j h1 h2
    have h3 : exG.states.length = 3 := rfl
    have hj : j = 2 := by omega
    subst hj
    left
    decide

/-- C3: the claim as stated is false — with all member CPUs offline the
sentinel does make the sleep window huge, but `cpu_pd_down_ok` can still veto
with a nonzero tolerance: with the 10/30/100 table and tolerance 1 µs every
state fits the window yet none costs below 1000 ns, so the scan exhausts and
vetoes although the tolerance is not 0. -/
theorem c3_counterexample :
    (cpu_pd_down_ok exG [0] [] (fun _ => 0) 0 1).1 = false ∧ (1 : Nat) ≠ 0 := by
  refine ⟨by decide, by decide⟩

/-- C3 (amended): with no online member CPU, `earliest` stays at the
`KTIME_SEC_MAX` sentinel, so the sleep window is `sentinel - now`: huge and
positive (never coerced to a tiny or zero value) for any current time below
the sentinel; tolerance 0 still vetoes.  (A nonzero tolerance may
nevertheless veto when no state's cost is below it, per the
counterexample.) -/
theorem c3_amended (g : Genpd) (cpus online : List Nat) (wk : Nat → Int)
    (now : Int) (hoff : cpus.filter (fun c => online.contains c) = [])
    (h0 : 0 ≤ now) (hlt : now < ktimeSecMaxNs) :
    earliestWakeup cpus online wk = ktimeSecMaxNs ∧
    sleepNs cpus online wk now = (ktimeSecMaxNs - now).toNat ∧
    0 < sleepNs cpus online wk now ∧
    (cpu_pd_down_ok g cpus online wk now 0).1 = false := by
  have hmax : ktimeSecMaxNs = 9223372036000000000 := by norm_num [ktimeSecMaxNs]
  have hU : (U64 : Int) = 18446744073709551616 := by norm_num [U64]
  rw [hmax] at hlt
  have he : earliestWakeup cpus online wk = ktimeSecMaxNs := by
    rw [earliestWakeup, hoff]
    rfl
  have hEq : sleepNs cpus online wk now = (ktimeSecMaxNs - now).toNat := by
    rw [sleepNs, he, Int.emod_eq_of_lt (by omega) (by omega)]
  refine ⟨he, hEq, ?_, by simp [cpu_pd_down_ok]⟩
  rw [hEq, hmax]
  omega

/-- C3 witness: the amended claim at a concrete offline scenario. -/
theorem c3_witness :
    earliestWakeup [3] [] (fun _ => 0) = ktimeSecMaxNs ∧
    sleepNs [3] [] (fun _ => 0) 5 = (ktimeSecMaxNs - 5).toNat ∧
    0 < sleepNs [3] [] (fun _ => 0) 5 ∧
    (cpu_pd_down_ok exG [3] [] (fun _ => 0) 5 0).1 = false :=
  c3_amended exG [3] [] (fun _ => 0) 5 (by decide) (by decide) (by decide)

/-- C6: the code contradicts the claimed (and clearly intended) behaviour:
`sleep_ns` is a `u64`, so `if (sleep_ns <= 0)` only catches an exactly-zero
window.  With the single online member CPU's next wakeup 1000 ns *before*
now, the window `earliest - now = -1000` is negative, wraps to
`2^64 - 1000`, and power-down is *permitted* instead of vetoed. -/
theorem c6_negative_window_not_vetoed :
    earliestWakeup [0] [0] (fun _ => 4000) - 5000 < 0 ∧
    sleepNs [0] [0] (fun _ => 4000) 5000 = 18446744073709550616 ∧
    (cpu_pd_down_ok negG [0] [0] (fun _ => 4000) 5000 10).1 = true := by
  refine ⟨by decide, by decide, by decide⟩

/-- C7: with latency tolerance 0 (`!qos_ns`), `cpu_pd_down_ok` vetoes for
every domain and every wakeup assignment, and the selected-state index is
reset to 0. -/
theorem c7_zero_tolerance_vetoes (g : Genpd) (cpus online : List Nat)
    (wk : Nat → Int) (now : Int) :
    cpu_pd_down_ok g cpus online wk now 0 = (false, { g with state_idx := 0 }) := by
  simp [cpu_pd_down_ok]

/-! ## Helper lemmas about membership propagation -/

/-- Overwriting only the `cpus` field of the domain at `j` does not change
which addresses the propagation loop visits (the walk depends only on the
parent pointers and on which addresses are live). -/
lemma chainIdxs_update_cpus (h : Heap) (j : Nat) (pd : CpuPD) (hj : h j = some pd)
    (c : Finset Nat) :
    ∀ fuel s, chainIdxs (Function.update h j (some { pd with cpus := c })) fuel s
      = chainIdxs h fuel s := by
  intro fuel
  induction fuel with
  | zero => intro s; rfl
  | succ m ih =>
    intro s
    cases s with
    | none => rfl
    | some i =>
      by_cases hij : i = j
      · subst hij
        simp only [chainIdxs, Function.update_same, hj]
        rw [ih]
      · simp only [chainIdxs, Function.update_noteq hij]
        cases hhi : h i with
        | none => rfl
        | some pdi => simp only [ih]

/-- Pointwise description of the propagation loop: an address on the visited
chain gets `cpu` inserted into its member set, every other address is
untouched. -/
lemma setCpuChain_apply (cpu : Nat) :
    ∀ (fuel : Nat) (h : Heap) (s : Option Nat) (k : Nat),
      setCpuChain cpu fuel h s k =
        if k ∈ chainIdxs h fuel s
        then (h k).map (fun pd => { pd with cpus := insert cpu pd.cpus })
        else h k := by
  intro fuel
  induction fuel with
  | zero => intro h s k; simp [setCpuChain, chainIdxs]
  | succ m ih =>
    intro h s k
    cases s with
    | none => simp [setCpuChain, chainIdxs]
    | some i =>
      cases hhi : h i with
      | none => simp [setCpuChain, chainIdxs, hhi]
      | some pd =>
        simp only [setCpuChain, chainIdxs, hhi]
        rw [ih, chainIdxs_update_cpus h i pd hhi]
        by_cases hki : k = i
        · subst hki
          by_cases hmem : k ∈ chainIdxs h m pd.parent
          · simp [hmem, Function.update_same, hhi, Finset.insert_idem]
          · simp [hmem, Function.update_same, hhi]
        · have hup : Function.update h i
              (some { pd with cpus := insert cpu pd.cpus }) k = h k :=
            Function.update_noteq hki _ _
          by_cases hmem : k ∈ chainIdxs h m pd.parent
          · simp [hmem, hup, hki]
          · simp [hmem, hup, hki]

/-- The propagation loop leaves the visited chain itself unchanged: running
it again walks the very same addresses. -/
lemma chainIdxs_setCpuChain (cpu fuel0 : Nat) (h : Heap) (s0 : Option Nat) :
    ∀ fuel s, chainIdxs (setCpuChain cpu fuel0 h s0) fuel s = chainIdxs h fuel s := by
  intro fuel
  induction fuel with
  | zero => intro s; rfl
  | succ m ih =>
    intro s
    cases s with
    | none => rfl
    | some i =>
      simp only [chainIdxs, setCpuChain_apply]
      by_cases hmem : i ∈ chainIdxs h fuel0 s0
      · rw [if_pos hmem]
        cases hhi : h i with
        | none => rfl
        | some pd => simp [ih]
      · rw [if_neg hmem]
        cases hhi : h i with
        | none => rfl
        | some pd => simp [ih]

/-! ## Claims about CPU attachment -/

/-- C4: the claim as stated is false — when the generic device-attach step
reports a failure (`genpd_dev_pm_attach` returned `-17`), the
`while (!ret && cpu_pd)` loop never runs, so the CPU is *not* inserted into
the leaf domain's member set: domain 0 still holds `pd0` with an empty
member set after the failed attach of CPU 3. -/
theorem c4_counterexample :
    (cpu_pd_attach_cpu h0 1 (some 0) 3 true (-17)).2 0 = some pd0 ∧
    3 ∉ pd0.cpus := by
  constructor
  · rfl
  · simp [pd0]

/-- C4 (amended): the CPU id is inserted into the member set of the leaf
domain and of every ancestor along the parent chain only when the generic
device-attach step succeeded (returned 0); when it reported a failure, no
member set changes and the error is returned. -/
theorem c4_amended (h : Heap) (fuel : Nat) (leaf : Option Nat) (cpu : Nat) (r : Int) :
    (r ≠ 0 → cpu_pd_attach_cpu h fuel leaf cpu true r = (r, h)) ∧
    (r = 0 → ∀ i ∈ chainIdxs h fuel leaf, ∀ pd,
      (cpu_pd_attach_cpu h fuel leaf cpu true r).2 i = some pd → cpu ∈ pd.cpus) := by
  constructor
  · intro hr
    simp [cpu_pd_attach_cpu, hr]
  · intro hr i hi pd hpd
    subst hr
    simp only [cpu_pd_attach_cpu, if_pos rfl, if_true] at hpd
    rw [setCpuChain_apply, if_pos hi] at hpd
    cases hk : h i with
    | none => rw [hk] at hpd; simp at hpd
    | some pdi =>
      rw [hk] at hpd
      simp at hpd
      rw [← hpd]
      simp

/-- C4 witness: the amended claim at concrete scenarios — a failing attach
leaves the heap untouched, a successful one puts CPU 3 into the leaf's
member set. -/
theorem c4_witness :
    cpu_pd_attach_cpu h0 1 (some 0) 9 true (-17) = (-17, h0) ∧
    3 ∈ ({ pd0 with cpus := insert 3 pd0.cpus } : CpuPD).cpus := by
  constructor
  · exact (c4_amended h0 1 (some 0) 9 (-17)).1 (by norm_num)
  · exact (c4_amended h0 1 (some 0) 3 0).2 rfl 0 (by decide)
      { pd0 with cpus := insert 3 pd0.cpus } rfl

/-- C8: attaching the same CPU twice (same leaf, same attach outcome) leaves
every member set exactly as after a single attach: `cpumask_set_cpu` is a
set insertion, so re-walking the unchanged parent chain re-inserts an
already-present id, a no-op. -/
theorem c8_attach_idempotent (h : Heap) (fuel : Nat) (leaf : Option Nat)
    (cpu : Nat) (r : Int) :
    (cpu_pd_attach_cpu (cpu_pd_attach_cpu h fuel leaf cpu true r).2
        fuel leaf cpu true r).2
      = (cpu_pd_attach_cpu h fuel leaf cpu true r).2 := by
  by_cases hr : r = 0
  · subst hr
    simp only [cpu_pd_attach_cpu, if_pos rfl, if_true]
    funext k
    rw [setCpuChain_apply, setCpuChain_apply, chainIdxs_setCpuChain]
    by_cases hmem : k ∈ chainIdxs h fuel leaf
    · rw [if_pos hmem, if_pos hmem]
      cases hk : h k with
      | none => rfl
      | some pd => simp [Finset.insert_idem]
    · rw [if_neg hmem, if_neg hmem]
  · simp [cpu_pd_attach_cpu, hr]

/-! ## Claims about the batch setup loop -/

/-- C5: the claim as stated is false — `of_setup_cpu_pd` breaks out of the
loop at the first failing CPU: with CPU 0 failing (`-19`) and CPU 1 fine,
CPU 1 is never processed. -/
theorem c5_counterexample :
    of_setup_cpu_pd (fun x => if x = 0 then -19 else 0) [0, 1] = (some (-19), [0]) ∧
    (1 : Nat) ∉ (of_setup_cpu_pd (fun x => if x = 0 then -19 else 0) [0, 1]).2 := by
  constructor
  · rfl
  · decide

/-- C5 (amended): the failure of one CPU's setup/attach stops the batch:
after any prefix of CPUs that set up successfully, the loop breaks at the
first CPU whose setup fails, returns that CPU's error, and never processes
the CPUs after it. -/
theorem c5_amended (single : Nat → Int) (pre : List Nat) (c : Nat) (post : List Nat)
    (hpre : ∀ x ∈ pre, single x = 0) (hc : single c ≠ 0) :
    of_setup_cpu_pd single (pre ++ c :: post) = (some (single c), pre ++ [c]) := by
  induction pre with
  | nil => simp [of_setup_cpu_pd, hc]
  | cons a l ih =>
    have ha : single a = 0 := hpre a (by simp)
    have hrec := ih (fun x hx => hpre x (by simp [hx]))
    simp [of_setup_cpu_pd, ha, hrec]

/-- C5 witness: the amended claim with CPU 1 failing among possible CPUs
0, 1, 2 — CPU 2 is never attached. -/
theorem c5_witness :
    of_setup_cpu_pd (fun x => if x = 1 then -19 else 0) [0, 1, 2]
      = (some (-19), [0, 1]) := by
  have := c5_amended (fun x => if x = 1 then -19 else 0) [0] 1 [2]
    (by intro x hx; simp at hx; subst hx; rfl) (by norm_num)
  simpa using this

/-! ## Claims about the registry lookup and the frame of the governor -/

/-- The registry scan of `to_cpu_pd` finds an entry whenever one with the
wanted `genpd` identity is on the list. -/
lemma to_cpu_pd_isSome (reg : List CpuPD) (gid : Nat) (pd0 : CpuPD)
    (hmem : pd0 ∈ reg) (hgid : pd0.genpd = gid) :
    (to_cpu_pd reg gid).isSome := by
  induction reg with
  | nil => simp at hmem
  | cons a l ih =>
    simp only [to_cpu_pd, List.find?]
    cases hb : (a.genpd == gid) with
    | true => simp
    | false =>
      rcases List.mem_cons.mp hmem with hh | hh
      · subst hh
        rw [hgid] at hb
        simp at hb
      · simpa [to_cpu_pd] using ih hh

/-- C10: `cpu_pd_power_on` and `cpu_pd_power_off` dereference the
`to_cpu_pd` result unchecked; whenever a registry entry with the domain's
identity exists — as guaranteed after `of_init_cpu_pm_domain` published the
entry (with `pd->genpd` already set) before registering the callbacks — the
lookup succeeds and the NULL-dereference branch (the `none` result) is not
taken. -/
theorem c10_no_null_deref (reg : List CpuPD) (gid : Nat) (pd0 : CpuPD)
    (g : Genpd) (hmem : pd0 ∈ reg) (hgid : pd0.genpd = gid) :
    (to_cpu_pd reg gid).isSome ∧
    (cpu_pd_power_on reg gid).isSome ∧
    (cpu_pd_power_off reg g gid).isSome := by
  have hfind := to_cpu_pd_isSome reg gid pd0 hmem hgid
  obtain ⟨pd, hpd⟩ := Option.isSome_iff_exists.mp hfind
  refine ⟨hfind, ?_, ?_⟩
  · simp [cpu_pd_power_on, hpd]
  · simp [cpu_pd_power_off, hpd]

/-- C10 witness: after `of_init_cpu_pm_domain` registers identity 5, both
callbacks run without hitting the NULL branch. -/
theorem c10_witness :
    (to_cpu_pd (of_init_cpu_pm_domain [] 5 none none) 5).isSome ∧
    (cpu_pd_power_on (of_init_cpu_pm_domain [] 5 none none) 5).isSome ∧
    (cpu_pd_power_off (of_init_cpu_pm_domain [] 5 none none) exG 5).isSome :=
  c10_no_null_deref (of_init_cpu_pm_domain [] 5 none none) 5
    { genpd := 5, cpus := ∅, parent := none,
      power_on_cb := none, power_off_cb := none }
    exG (List.mem_cons_self _ _) rfl

/-- C9: a `cpu_pd_down_ok` evaluation writes exactly one field of the
system: the decided domain's `state_idx`.  The resulting genpd heap is the
old one updated only at that identity, the updated genpd agrees with the old
one on name, flags and state table, and the registry (member sets, parent
links, callbacks) is returned unchanged. -/
theorem c9_down_ok_frame (gh : GHeap) (reg : List CpuPD) (gid : Nat)
    (online : List Nat) (wk : Nat → Int) (now : Int) (qos : Nat)
    (g : Genpd) (pd : CpuPD) (hg : gh gid = some g)
    (hpd : to_cpu_pd reg gid = some pd) :
    ∃ k, (cpu_pd_down_ok_sys gh reg gid online wk now qos).2
      = (Function.update gh gid (some { g with state_idx := k }), reg) := by
  obtain ⟨k, hk⟩ := down_ok_writes_only_state_idx g (pd.cpus.sort (· ≤ ·))
    online wk now qos
  refine ⟨k, ?_⟩
  simp only [cpu_pd_down_ok_sys, hg, hpd]
  rw [hk]

/-- C9 witness: the frame property at a concrete one-domain system. -/
theorem c9_witness :
    ∃ k, (cpu_pd_down_ok_sys gh0 reg0 0 [] (fun _ => 0) 0 0).2
      = (Function.update gh0 0 (some { exG with state_idx := k }), reg0) :=
  c9_down_ok_frame gh0 reg0 0 [] (fun _ => 0) 0 0 exG
    { genpd := 0, cpus := ∅, parent := none,
      power_on_cb := none, power_off_cb := none }
    rfl rfl

end CpuDomains
